import Mathlib

/-!
# myaws `ec2 ls`: filter builder and field projector

A shallow embedding of `myaws/ec2/ls.go`.  Go strings are Lean strings, Go
pointers to scalar fields are `Option`s, and a Go run-time panic is the error
side of `Except Panic`.
-/

namespace Myaws

/-! ## Run-time failures -/

/-- The run-time panics the code of `ls.go` can raise. -/
inductive Panic where
  /-- Dereference of a nil pointer (`*p` with `p == nil`). -/
  | nilDereference
  /-- Slice index outside the slice (`parts[1]` on a one-element slice). -/
  | indexOutOfRange
  /-- Call of the nil function value a map lookup gives for a missing key. -/
  | nilFuncCall
  deriving DecidableEq, Repr

/-- A Go computation that either returns a value or panics. -/
abbrev Go (α : Type) := Except Panic α

deriving instance DecidableEq for Except

/-! ## Data model (the SDK types the code reads and builds) -/

/-- The SDK type `ec2.Tag`: both fields are `*string`. -/
structure Tag where
  Key : Option String
  Value : Option String
  deriving DecidableEq, Repr

/-- The SDK type `ec2.InstanceState`, of which only `Name *string` is read. -/
structure InstanceState where
  Name : Option String
  deriving DecidableEq, Repr

/-- A point in time (`time.Time`); only ever handed to `FormatTime`. -/
abbrev Time := Int

/-- The SDK type `ec2.Instance`, restricted to the fields `ls.go` reads.
Every scalar field is a pointer in Go, hence an `Option` here; the record
itself and the elements of `Tags` are taken to be non-nil. -/
structure Instance where
  InstanceId : Option String
  InstanceType : Option String
  PublicIpAddress : Option String
  PrivateIpAddress : Option String
  State : Option InstanceState
  LaunchTime : Option Time
  Tags : List Tag
  deriving DecidableEq, Repr

/-- The SDK type `ec2.Filter`: `Name *string`, `Values []*string`. -/
structure Filter where
  Name : Option String
  Values : List (Option String)
  deriving DecidableEq, Repr

/-- The SDK type `ec2.DescribeInstancesInput`; `Filters` is `[]*ec2.Filter`,
so an entry may be the nil pointer (`none`). -/
structure DescribeInstancesInput where
  Filters : List (Option Filter)
  deriving DecidableEq, Repr

/-- The SDK type `ec2.Reservation`, restricted to `Instances`. -/
structure Reservation where
  Instances : List Instance
  deriving DecidableEq, Repr

/-- The SDK type `ec2.DescribeInstancesOutput`, restricted to `Reservations`. -/
structure DescribeInstancesOutput where
  Reservations : List Reservation
  deriving DecidableEq, Repr

/-- The struct `LsOptions`. -/
structure LsOptions where
  All : Bool
  Quiet : Bool
  FilterTag : String
  Fields : List String
  deriving DecidableEq, Repr

/-- A Go `error` value: either an error of the API client, or an error
wrapped with a context message by `errors.Wrap`. -/
inductive GoError where
  | api (message : String)
  | wrap (cause : GoError) (context : String)
  deriving DecidableEq, Repr

/-! ## The Go library functions the code calls -/

/-- Pieces of a character list between occurrences of `sep`. -/
def splitChars (sep : Char) : List Char → List (List Char)
  | [] => [[]]
  | c :: cs =>
    if c = sep then [] :: splitChars sep cs
    else
      match splitChars sep cs with
      | [] => [[c]]
      | p :: ps => (c :: p) :: ps

/-- The call `strings.Split(s, sep)` for a one-character separator, the only
kind `ls.go` uses (`":"`): all pieces of `s` between occurrences of `sep`. -/
def stringsSplit (s : String) (sep : Char) : List String :=
  (splitChars sep s.data).map String.mk

/-- Position of the first occurrence of `sub` in the list, counted from `i`,
or `-1`. -/
def indexChars (sub : List Char) : List Char → Nat → Int
  | [], i => if sub.isPrefixOf [] then (i : Int) else -1
  | c :: cs, i => if sub.isPrefixOf (c :: cs) then (i : Int) else indexChars sub cs (i + 1)

/-- The call `strings.Index(s, substr)`: the position of the first occurrence
of `substr` in `s`, or `-1` when there is none.  Positions count characters;
the code only compares the result with `-1`. -/
def stringsIndex (s substr : String) : Int :=
  indexChars substr.data s.data 0

/-- The call `strings.Join(elems, sep)`: no element gives `""`, one element
gives that element, otherwise the first element followed by `sep` and the
next element, for each further element. -/
def stringsJoin : List String → String → String
  | [], _ => ""
  | [a], _ => a
  | a :: rest, sep => rest.foldl (fun b s => b ++ sep ++ s) a

/-- The call `fmt.Sprintf("%-<width>s", s)`: `s` followed by
`width - (number of characters of s)` spaces, none when that is not positive. -/
def sprintfLeftJustified (width : Nat) (s : String) : String :=
  s ++ String.mk (List.replicate (width - s.length) ' ')

/-! ## Filter builder -/

/-- The function `buildStateFilter`. -/
def buildStateFilter (all : Bool) : Option Filter :=
  if !all then
    some { Name := some "instance-state-name", Values := [some "running"] }
  else
    none

/-- The function `buildTagFilter`; `tagParts[0]` and `tagParts[1]` panic when
the slice is too short. -/
def buildTagFilter (filterTag : String) : Go (Option Filter) :=
  if filterTag ≠ "" then
    let tagParts := stringsSplit filterTag ':'
    match tagParts[0]? with
    | none => .error .indexOutOfRange
    | some part0 =>
      match tagParts[1]? with
      | none => .error .indexOutOfRange
      | some part1 =>
        .ok (some { Name := some ("tag:" ++ part0), Values := [some ("*" ++ part1 ++ "*")] })
  else
    .ok none

/-! ## Field projector -/

/-- The function `formatInstanceID`. -/
def formatInstanceID (inst : Instance) : Go String :=
  match inst.InstanceId with
  | none => .error .nilDereference
  | some id => .ok id

/-- The function `formatInstanceType`. -/
def formatInstanceType (inst : Instance) : Go String :=
  match inst.InstanceType with
  | none => .error .nilDereference
  | some t => .ok (sprintfLeftJustified 11 t)

/-- The function `formatPublicIPAddress`. -/
def formatPublicIPAddress (inst : Instance) : Go String :=
  match inst.PublicIpAddress with
  | none => .ok "___.___.___.___"
  | some a => .ok a

/-- The function `formatPrivateIPAddress`. -/
def formatPrivateIPAddress (inst : Instance) : Go String :=
  match inst.PrivateIpAddress with
  | none => .ok "___.___.___.___"
  | some a => .ok a

/-- The function `formatStateName`. -/
def formatStateName (inst : Instance) : Go String :=
  match inst.State with
  | none => .error .nilDereference
  | some st =>
    match st.Name with
    | none => .error .nilDereference
    | some n => .ok n

/-- The function `formatLaunchTime`; `FormatTime` is `myaws.FormatTime`, which
lives outside `ls.go` and is a parameter here. -/
def formatLaunchTime (FormatTime : Option Time → Go String) (inst : Instance) : Go String :=
  FormatTime inst.LaunchTime

/-- The loop of `formatTag` over the tag list: the first tag whose key equals
`key` gives its value; the zero value `""` of `value` is kept otherwise. -/
def formatTagLoop (key : String) : List Tag → Go String
  | [] => .ok ""
  | t :: rest =>
    match t.Key with
    | none => .error .nilDereference
    | some k =>
      if k = key then
        match t.Value with
        | none => .error .nilDereference
        | some v => .ok v
      else formatTagLoop key rest

/-- The function `formatTag`. -/
def formatTag (inst : Instance) (key : String) : Go String :=
  formatTagLoop key inst.Tags

/-- The map `formatFuncs` of `formatInstance`; a missing key gives the nil
function (`none`). -/
def formatFuncs (FormatTime : Option Time → Go String) (field : String) :
    Option (Instance → Go String) :=
  if field = "InstanceId" then some formatInstanceID
  else if field = "InstanceType" then some formatInstanceType
  else if field = "PublicIpAddress" then some formatPublicIPAddress
  else if field = "PrivateIpAddress" then some formatPrivateIPAddress
  else if field = "StateName" then some formatStateName
  else if field = "LaunchTime" then some (formatLaunchTime FormatTime)
  else none

/-- The body of the loop of `formatInstance`: the value of one field. -/
def fieldValue (FormatTime : Option Time → Go String) (inst : Instance) (field : String) :
    Go String :=
  if stringsIndex field "Tag:" ≠ -1 then
    match (stringsSplit field ':')[1]? with
    | none => .error .indexOutOfRange
    | some key => formatTag inst key
  else
    match formatFuncs FormatTime field with
    | none => .error .nilFuncCall
    | some f => f inst

/-- The loop of `formatInstance`: `output` grows by one value per field. -/
def formatInstanceLoop (FormatTime : Option Time → Go String) (inst : Instance) :
    List String → List String → Go (List String)
  | [], output => .ok output
  | field :: rest, output =>
    match fieldValue FormatTime inst field with
    | .error p => .error p
    | .ok value => formatInstanceLoop FormatTime inst rest (output ++ [value])

/-- The function `formatInstance`. -/
def formatInstance (FormatTime : Option Time → Go String) (inst : Instance)
    (fields : List String) (quiet : Bool) : Go String :=
  let outputFields := if quiet then ["InstanceId"] else fields
  match formatInstanceLoop FormatTime inst outputFields [] with
  | .error p => .error p
  | .ok output => .ok (stringsJoin output "\t")

/-! ## The command -/

/-- How a call of `Ls` ends: it returns (nil or an error), or it panics. -/
inductive Outcome where
  | returned (err : Option GoError)
  | panicked (p : Panic)
  deriving DecidableEq, Repr

/-- What a call of `Ls` does: the queries sent, the lines printed, the end. -/
structure Run where
  queries : List DescribeInstancesInput
  lines : List String
  outcome : Outcome
  deriving DecidableEq, Repr

/-- The request `Ls` builds (`params`); the state filter is built first. -/
def lsParams (options : LsOptions) : Go DescribeInstancesInput :=
  let stateFilter := buildStateFilter options.All
  match buildTagFilter options.FilterTag with
  | .error p => .error p
  | .ok tagFilter => .ok { Filters := [stateFilter, tagFilter] }

/-- The inner loop of `Ls`: one printed line per instance of a reservation,
appended to the lines already printed; a panic stops the printing. -/
def printInstances (FormatTime : Option Time → Go String) (options : LsOptions) :
    List Instance → List String → List String × Option Panic
  | [], printed => (printed, none)
  | inst :: rest, printed =>
    match formatInstance FormatTime inst options.Fields options.Quiet with
    | .error p => (printed, some p)
    | .ok line => printInstances FormatTime options rest (printed ++ [line])

/-- The outer loop of `Ls` over the reservations. -/
def printReservations (FormatTime : Option Time → Go String) (options : LsOptions) :
    List Reservation → List String → List String × Option Panic
  | [], printed => (printed, none)
  | r :: rest, printed =>
    match printInstances FormatTime options r.Instances printed with
    | (printed1, some p) => (printed1, some p)
    | (printed1, none) => printReservations FormatTime options rest printed1

/-- The function `Ls`; `describe` is `client.EC2.DescribeInstances`. -/
def Ls (FormatTime : Option Time → Go String)
    (describe : DescribeInstancesInput → Except GoError DescribeInstancesOutput)
    (options : LsOptions) : Run :=
  match lsParams options with
  | .error p => { queries := [], lines := [], outcome := .panicked p }
  | .ok params =>
    match describe params with
    | .error err =>
      { queries := [params], lines := [],
        outcome := .returned (some (.wrap err "DescribeInstances failed")) }
    | .ok response =>
      match printReservations FormatTime options response.Reservations [] with
      | (printed, some p) => { queries := [params], lines := printed, outcome := .panicked p }
      | (printed, none) => { queries := [params], lines := printed, outcome := .returned none }

/-! ## Specification-side definitions -/

/-- The values of a line written one after the other, with one tab between
each value and the next. -/
def tabSeparated : List String → String
  | [] => ""
  | [v] => v
  | v :: w :: rest => v ++ "\t" ++ tabSeparated (w :: rest)

/-- A record with identifier `i-001`, type `t2.micro`, no public address,
state `running` and the tags `Name=web1`, `Env=prod`. -/
def sampleInstance : Instance :=
  { InstanceId := some "i-001", InstanceType := some "t2.micro",
    PublicIpAddress := none, PrivateIpAddress := some "10.0.0.1",
    State := some { Name := some "running" }, LaunchTime := some 0,
    Tags := [{ Key := some "Name", Value := some "web1" },
             { Key := some "Env", Value := some "prod" }] }

/-- A time formatter that prints every time as the same text. -/
def sampleFormatTime : Option Time → Go String
  | none => .error .nilDereference
  | some _ => .ok "2016-01-01 00:00:00"

/-- The names of the formatter registry (the keys of `formatFuncs`). -/
def registryNames : List String :=
  ["InstanceId", "InstanceType", "PublicIpAddress", "PrivateIpAddress", "StateName", "LaunchTime"]

/-- A tag reference: a name that begins with the marker `Tag:`. -/
def isTagReference (field : String) : Bool :=
  "Tag:".data.isPrefixOf field.data

/-- A record on which no dereference of the formatters fails: identifier,
type and state name are present, the launch time formats, and every tag has a
key and a value. -/
def completeRecord (FormatTime : Option Time → Go String) (inst : Instance) : Prop :=
  inst.InstanceId ≠ none ∧ inst.InstanceType ≠ none
    ∧ (∃ st, inst.State = some st ∧ st.Name ≠ none)
    ∧ (∃ s, FormatTime inst.LaunchTime = .ok s)
    ∧ ∀ t ∈ inst.Tags, t.Key ≠ none ∧ t.Value ≠ none

/-- The sample record with the public address `1.2.3.4`. -/
def addressedInstance : Instance :=
  { sampleInstance with PublicIpAddress := some "1.2.3.4" }

/-- The sample record with a single tag whose key pointer is nil. -/
def nilKeyInstance : Instance :=
  { sampleInstance with Tags := [{ Key := none, Value := some "web1" }] }

/-- The sample record with the single tag
`aws:autoscaling:groupName=web-asg`. -/
def groupTaggedInstance : Instance :=
  { sampleInstance with
    Tags := [{ Key := some "aws:autoscaling:groupName", Value := some "web-asg" }] }

/-- The state predicate "lifecycle state is running". -/
def runningFilter : Filter :=
  { Name := some "instance-state-name", Values := [some "running"] }

/-- An API client that answers every query with no reservation. -/
def emptyDescribe : DescribeInstancesInput → Except GoError DescribeInstancesOutput :=
  fun _ => .ok { Reservations := [] }

/-- The instances of a response in the order `Ls` visits them: those of the
first reservation in their order, then those of the second, and so on. -/
def allInstances (response : DescribeInstancesOutput) : List Instance :=
  response.Reservations.flatMap (fun r => r.Instances)

/-- The sample record with the identifier `i-002` and the state `stopped`. -/
def stoppedInstance : Instance :=
  { sampleInstance with InstanceId := some "i-002", State := some { Name := some "stopped" } }

/-- A response of two reservations with one instance each. -/
def sampleResponse : DescribeInstancesOutput :=
  { Reservations := [{ Instances := [sampleInstance] }, { Instances := [stoppedInstance] }] }

/-- An API client that answers every query with the sample response. -/
def sampleDescribe : DescribeInstancesInput → Except GoError DescribeInstancesOutput :=
  fun _ => .ok sampleResponse

/-- An API client that fails every query. -/
def failingDescribe : DescribeInstancesInput → Except GoError DescribeInstancesOutput :=
  fun _ => .error (.api "RequestLimitExceeded")

/-- The sample record with a nil identifier pointer. -/
def unnamedInstance : Instance :=
  { sampleInstance with InstanceId := none }

/-- A response of two reservations with one instance each, the second
without identifier. -/
def partialResponse : DescribeInstancesOutput :=
  { Reservations := [{ Instances := [sampleInstance] }, { Instances := [unnamedInstance] }] }

/-- An API client that answers every query with `partialResponse`. -/
def partialDescribe : DescribeInstancesInput → Except GoError DescribeInstancesOutput :=
  fun _ => .ok partialResponse

/-! ## Lemmas on the field projector -/

theorem formatInstanceLoop_ok (FormatTime : Option Time → Go String) (inst : Instance)
    (fields vals : List String)
    (h : List.Forall₂ (fun f v => fieldValue FormatTime inst f = .ok v) fields vals)
    (output : List String) :
    formatInstanceLoop FormatTime inst fields output = .ok (output ++ vals) := by
  induction h generalizing output with
  | nil => simp [formatInstanceLoop]
  | cons hfv _ ih => simp [formatInstanceLoop, hfv, ih]

theorem formatInstance_single (FormatTime : Option Time → Go String) (inst : Instance)
    (field : String) :
    formatInstance FormatTime inst [field] false = fieldValue FormatTime inst field := by
  unfold formatInstance
  simp only [Bool.false_eq_true, if_false, formatInstanceLoop]
  cases fieldValue FormatTime inst field <;> simp [formatInstanceLoop, stringsJoin]

theorem fieldValue_InstanceId (FormatTime : Option Time → Go String) (inst : Instance) :
    fieldValue FormatTime inst "InstanceId" = formatInstanceID inst := by
  have h : stringsIndex "InstanceId" "Tag:" = -1 := by decide
  simp [fieldValue, h, formatFuncs]

theorem fieldValue_InstanceType (FormatTime : Option Time → Go String) (inst : Instance) :
    fieldValue FormatTime inst "InstanceType" = formatInstanceType inst := by
  have h : stringsIndex "InstanceType" "Tag:" = -1 := by decide
  simp [fieldValue, h, formatFuncs]

theorem fieldValue_PublicIpAddress (FormatTime : Option Time → Go String) (inst : Instance) :
    fieldValue FormatTime inst "PublicIpAddress" = formatPublicIPAddress inst := by
  have h : stringsIndex "PublicIpAddress" "Tag:" = -1 := by decide
  simp [fieldValue, h, formatFuncs]

theorem fieldValue_PrivateIpAddress (FormatTime : Option Time → Go String) (inst : Instance) :
    fieldValue FormatTime inst "PrivateIpAddress" = formatPrivateIPAddress inst := by
  have h : stringsIndex "PrivateIpAddress" "Tag:" = -1 := by decide
  simp [fieldValue, h, formatFuncs]

theorem fieldValue_StateName (FormatTime : Option Time → Go String) (inst : Instance) :
    fieldValue FormatTime inst "StateName" = formatStateName inst := by
  have h : stringsIndex "StateName" "Tag:" = -1 := by decide
  simp [fieldValue, h, formatFuncs]

theorem fieldValue_LaunchTime (FormatTime : Option Time → Go String) (inst : Instance) :
    fieldValue FormatTime inst "LaunchTime" = formatLaunchTime FormatTime inst := by
  have h : stringsIndex "LaunchTime" "Tag:" = -1 := by decide
  simp [fieldValue, h, formatFuncs]

theorem tabSeparated_append_head (x y : String) (rest : List String) :
    tabSeparated ((x ++ y) :: rest) = x ++ tabSeparated (y :: rest) := by
  cases rest with
  | nil => simp [tabSeparated]
  | cons w ws => simp [tabSeparated, String.append_assoc]

theorem foldl_join_eq_tabSeparated (rest : List String) (a : String) :
    rest.foldl (fun b s => b ++ "\t" ++ s) a = tabSeparated (a :: rest) := by
  induction rest generalizing a with
  | nil => simp [tabSeparated]
  | cons r rs ih =>
    rw [List.foldl_cons, ih, String.append_assoc, tabSeparated_append_head,
      tabSeparated_append_head]
    simp [tabSeparated, String.append_assoc]

theorem stringsJoin_tab (vals : List String) :
    stringsJoin vals "\t" = tabSeparated vals := by
  match vals with
  | [] => rfl
  | [a] => rfl
  | a :: b :: rest => simp only [stringsJoin]; exact foldl_join_eq_tabSeparated (b :: rest) a

theorem sprintfLeftJustified_length (width : Nat) (s : String) :
    (sprintfLeftJustified width s).length = if s.length ≤ width then width else s.length := by
  simp only [sprintfLeftJustified, String.length_append, String.length_mk, List.length_replicate]
  split <;> omega

/-! ## Lemmas on splitting and on tag references -/

theorem splitChars_ne_nil (sep : Char) (l : List Char) : splitChars sep l ≠ [] := by
  cases l with
  | nil => simp [splitChars]
  | cons c cs =>
    unfold splitChars
    split
    · simp
    · split <;> simp

theorem splitChars_head (sep : Char) (l : List Char) :
    (splitChars sep l).head? = some (l.takeWhile (fun c => c != sep)) := by
  induction l with
  | nil => simp [splitChars]
  | cons c cs ih =>
    unfold splitChars
    by_cases hc : c = sep
    · simp [hc]
    · simp only [hc, if_false]
      cases hs : splitChars sep cs with
      | nil => exact absurd hs (splitChars_ne_nil sep cs)
      | cons p ps =>
        rw [hs] at ih
        simp at ih
        have hb : (c != sep) = true := by simp [hc]
        simp [List.takeWhile, hb, ih]

theorem splitChars_append_sep (sep : Char) (k v : List Char) (hk : sep ∉ k) :
    splitChars sep (k ++ sep :: v) = k :: splitChars sep v := by
  induction k with
  | nil => simp [splitChars]
  | cons c cs ih =>
    have hc : c ≠ sep := fun h => hk (by simp [h])
    have hcs : sep ∉ cs := fun h => hk (by simp [h])
    simp [splitChars, hc, ih hcs]

theorem splitChars_no_sep (sep : Char) (v : List Char) (hv : sep ∉ v) :
    splitChars sep v = [v] := by
  induction v with
  | nil => simp [splitChars]
  | cons c cs ih =>
    have hc : c ≠ sep := fun h => hv (by simp [h])
    have hcs : sep ∉ cs := fun h => hv (by simp [h])
    simp [splitChars, hc, ih hcs]

theorem stringsIndex_tag_marker (key : String) : stringsIndex ("Tag:" ++ key) "Tag:" ≠ -1 := by
  have h : ("Tag:" ++ key).data = 'T' :: 'a' :: 'g' :: ':' :: key.data := by
    rw [String.data_append]; rfl
  have h2 : "Tag:".data = ['T', 'a', 'g', ':'] := rfl
  simp [stringsIndex, h, h2, indexChars, List.isPrefixOf]

theorem stringsSplit_tag_marker (key : String) :
    (stringsSplit ("Tag:" ++ key) ':')[1]?
      = some (String.mk (key.data.takeWhile (fun c => c != ':'))) := by
  have h : ("Tag:" ++ key).data = ['T', 'a', 'g'] ++ ':' :: key.data := by
    rw [String.data_append]; rfl
  have hno : ':' ∉ ['T', 'a', 'g'] := by decide
  have hh := splitChars_head ':' key.data
  simp only [stringsSplit, h, splitChars_append_sep _ _ _ hno]
  cases hs : splitChars ':' key.data with
  | nil => exact absurd hs (splitChars_ne_nil _ _)
  | cons p ps =>
    rw [hs] at hh
    simp at hh
    simp [hh]

theorem fieldValue_tag_marker (FormatTime : Option Time → Go String) (inst : Instance)
    (key : String) :
    fieldValue FormatTime inst ("Tag:" ++ key)
      = formatTag inst (String.mk (key.data.takeWhile (fun c => c != ':'))) := by
  simp [fieldValue, stringsIndex_tag_marker, stringsSplit_tag_marker]

theorem takeWhile_no_colon (key : String) (h : ':' ∉ key.data) :
    String.mk (key.data.takeWhile (fun c => c != ':')) = key := by
  have : key.data.takeWhile (fun c => c != ':') = key.data := by
    rw [List.takeWhile_eq_self_iff]
    intro c hc
    simp
    rintro rfl
    exact h hc
  rw [this]

/-! ## Lemmas on the tag lookup and on resolvable fields -/

theorem formatTagLoop_first_match (key v : String) (pre : List Tag) (t : Tag) (post : List Tag)
    (hpre : ∀ u ∈ pre, ∃ k, u.Key = some k ∧ k ≠ key)
    (hk : t.Key = some key) (hv : t.Value = some v) :
    formatTagLoop key (pre ++ t :: post) = .ok v := by
  induction pre with
  | nil => simp [formatTagLoop, hk, hv]
  | cons u us ih =>
    obtain ⟨k, huk, hne⟩ := hpre u (by simp)
    have ih2 := ih (fun w hw => hpre w (by simp [hw]))
    simp [formatTagLoop, huk, hne, ih2]

theorem formatTagLoop_absent (key : String) (tags : List Tag)
    (h : ∀ u ∈ tags, ∃ k, u.Key = some k ∧ k ≠ key) :
    formatTagLoop key tags = .ok "" := by
  induction tags with
  | nil => simp [formatTagLoop]
  | cons u us ih =>
    obtain ⟨k, huk, hne⟩ := h u (by simp)
    have ih2 := ih (fun w hw => h w (by simp [hw]))
    simp [formatTagLoop, huk, hne, ih2]

theorem formatTagLoop_total (key : String) (tags : List Tag)
    (hwf : ∀ t ∈ tags, t.Key ≠ none ∧ t.Value ≠ none) :
    ∃ v, formatTagLoop key tags = .ok v := by
  induction tags with
  | nil => exact ⟨"", rfl⟩
  | cons u us ih =>
    obtain ⟨hk, hv⟩ := hwf u (by simp)
    obtain ⟨k, huk⟩ := Option.ne_none_iff_exists'.mp hk
    obtain ⟨w, huv⟩ := Option.ne_none_iff_exists'.mp hv
    obtain ⟨v, ihv⟩ := ih (fun w hw => hwf w (by simp [hw]))
    by_cases hkk : k = key
    · exact ⟨w, by simp [formatTagLoop, huk, hkk, huv]⟩
    · exact ⟨v, by simp [formatTagLoop, huk, hkk, ihv]⟩

theorem key_ne_of_wf (key : String) (u : Tag) (hk : u.Key ≠ none) (hne : u.Key ≠ some key) :
    ∃ k, u.Key = some k ∧ k ≠ key := by
  obtain ⟨k, huk⟩ := Option.ne_none_iff_exists'.mp hk
  exact ⟨k, huk, fun h => hne (by rw [huk, h])⟩

theorem isTagReference_eq (f : String) (h : isTagReference f = true) :
    ∃ key : String, f = "Tag:" ++ key := by
  unfold isTagReference at h
  rw [List.isPrefixOf_iff_prefix] at h
  obtain ⟨t, ht⟩ := h
  refine ⟨String.mk t, ?_⟩
  apply String.ext
  rw [String.data_append, ← ht]

theorem fieldValue_resolvable (FormatTime : Option Time → Go String) (inst : Instance)
    (hc : completeRecord FormatTime inst) (f : String)
    (hf : f ∈ registryNames ∨ isTagReference f = true) :
    ∃ v, fieldValue FormatTime inst f = .ok v := by
  obtain ⟨hid, hty, ⟨st, hst, hname⟩, ⟨lt, hlt⟩, htags⟩ := hc
  rcases hf with hf | hf
  · simp only [registryNames, List.mem_cons, List.mem_singleton, List.not_mem_nil, or_false] at hf
    rcases hf with rfl | rfl | rfl | rfl | rfl | rfl
    · obtain ⟨id, h⟩ := Option.ne_none_iff_exists'.mp hid
      exact ⟨id, by simp [fieldValue_InstanceId, formatInstanceID, h]⟩
    · obtain ⟨t, h⟩ := Option.ne_none_iff_exists'.mp hty
      exact ⟨sprintfLeftJustified 11 t, by simp [fieldValue_InstanceType, formatInstanceType, h]⟩
    · rw [fieldValue_PublicIpAddress]; unfold formatPublicIPAddress
      cases inst.PublicIpAddress <;> simp
    · rw [fieldValue_PrivateIpAddress]; unfold formatPrivateIPAddress
      cases inst.PrivateIpAddress <;> simp
    · obtain ⟨n, h⟩ := Option.ne_none_iff_exists'.mp hname
      exact ⟨n, by simp [fieldValue_StateName, formatStateName, hst, h]⟩
    · exact ⟨lt, by simp [fieldValue_LaunchTime, formatLaunchTime, hlt]⟩
  · obtain ⟨key, rfl⟩ := isTagReference_eq f hf
    rw [fieldValue_tag_marker]
    exact formatTagLoop_total _ _ htags

theorem fieldValues_exist (FormatTime : Option Time → Go String) (inst : Instance)
    (fields : List String) (h : ∀ f ∈ fields, ∃ v, fieldValue FormatTime inst f = .ok v) :
    ∃ vals, List.Forall₂ (fun f v => fieldValue FormatTime inst f = .ok v) fields vals := by
  induction fields with
  | nil => exact ⟨[], List.Forall₂.nil⟩
  | cons f fs ih =>
    obtain ⟨v, hv⟩ := h f (by simp)
    obtain ⟨vs, hvs⟩ := ih (fun g hg => h g (by simp [hg]))
    exact ⟨v :: vs, List.Forall₂.cons hv hvs⟩

theorem formatInstance_of_values (FormatTime : Option Time → Go String) (inst : Instance)
    (fields vals : List String)
    (h : List.Forall₂ (fun f v => fieldValue FormatTime inst f = .ok v) fields vals) :
    formatInstance FormatTime inst fields false = .ok (tabSeparated vals) := by
  simp [formatInstance, formatInstanceLoop_ok FormatTime inst fields vals h [], stringsJoin_tab]


/-! ## Lemmas on the filter builder and the request -/

theorem tag_name_ne_state_name (x : String) : "tag:" ++ x ≠ "instance-state-name" := by
  intro h
  have h1 := congrArg (fun s : String => s.data.head?) h
  have h2 : ("tag:" ++ x).data = 't' :: 'a' :: 'g' :: ':' :: x.data := by
    rw [String.data_append]; rfl
  have h3 : "instance-state-name".data.head? = some 'i' := by decide
  simp only [h2, h3, List.head?_cons] at h1
  exact absurd h1 (by decide)

theorem buildTagFilter_ne_running (filterTag : String) :
    buildTagFilter filterTag ≠ .ok (some runningFilter) := by
  unfold buildTagFilter
  split
  · simp only []
    split
    · simp
    · split
      · simp
      · intro h
        simp only [runningFilter, Except.ok.injEq, Option.some.injEq, Filter.mk.injEq] at h
        exact tag_name_ne_state_name _ h.1
  · simp

theorem lsParams_running (options : LsOptions) (params : DescribeInstancesInput)
    (h : lsParams options = .ok params) :
    (some runningFilter ∈ params.Filters ↔ options.All = false) := by
  unfold lsParams at h
  cases htag : buildTagFilter options.FilterTag with
  | error p => simp [htag] at h
  | ok tagFilter =>
    have hne : tagFilter ≠ some runningFilter := by
      intro heq
      exact buildTagFilter_ne_running options.FilterTag (by rw [htag, heq])
    simp only [htag, Except.ok.injEq] at h
    subst h
    cases hall : options.All
    · simp [buildStateFilter, runningFilter]
    · simp only [buildStateFilter, List.mem_cons, List.mem_singleton, List.not_mem_nil]
      simp [Ne.symm hne]

theorem Ls_queries (FormatTime : Option Time → Go String)
    (describe : DescribeInstancesInput → Except GoError DescribeInstancesOutput)
    (options : LsOptions) (q : DescribeInstancesInput)
    (hq : q ∈ (Ls FormatTime describe options).queries) : lsParams options = .ok q := by
  unfold Ls at hq
  cases hp : lsParams options with
  | error p => simp [hp] at hq
  | ok params =>
    simp only [hp] at hq
    cases hd : describe params with
    | error err => simp [hd] at hq; rw [hq]
    | ok response =>
      simp only [hd] at hq
      rcases hr : printReservations FormatTime options response.Reservations [] with ⟨printed, _ | p⟩
      · simp [hr] at hq; rw [hq]
      · simp [hr] at hq; rw [hq]

theorem stringsSplit_key_value (k v : String) (hk : ':' ∉ k.data) (hv : ':' ∉ v.data) :
    stringsSplit (k ++ ":" ++ v) ':' = [k, v] := by
  have h : (k ++ ":" ++ v).data = k.data ++ ':' :: v.data := by
    rw [String.data_append, String.data_append]
    simp
  simp [stringsSplit, h, splitChars_append_sep _ _ _ hk, splitChars_no_sep _ _ hv]


/-! ## Lemmas on names that contain the tag marker and on unknown names -/

theorem stringsSplit_no_sep (s : String) (sep : Char) (h : sep ∉ s.data) :
    stringsSplit s sep = [s] := by
  simp [stringsSplit, splitChars_no_sep sep s.data h]

theorem buildTagFilter_no_colon (filterTag : String) (hne : filterTag ≠ "")
    (hcolon : ':' ∉ filterTag.data) :
    buildTagFilter filterTag = .error .indexOutOfRange := by
  simp [buildTagFilter, hne, stringsSplit_no_sep filterTag ':' hcolon]

theorem indexChars_tag_colon (l : List Char) (i : Nat)
    (h : indexChars "Tag:".data l i ≠ -1) : ':' ∈ l := by
  have hd : "Tag:".data = ['T', 'a', 'g', ':'] := rfl
  rw [hd] at h
  induction l generalizing i with
  | nil => simp [indexChars, List.isPrefixOf] at h
  | cons c cs ih =>
    unfold indexChars at h
    by_cases hp : List.isPrefixOf ['T', 'a', 'g', ':'] (c :: cs) = true
    · rw [List.isPrefixOf_iff_prefix] at hp
      obtain ⟨t, ht⟩ := hp
      rw [← ht]
      simp
    · simp only [hp] at h
      exact List.mem_cons_of_mem c (ih (i + 1) h)

theorem splitChars_length_of_mem (sep : Char) (l : List Char) (h : sep ∈ l) :
    2 ≤ (splitChars sep l).length := by
  induction l with
  | nil => simp at h
  | cons c cs ih =>
    unfold splitChars
    by_cases hc : c = sep
    · have hne := splitChars_ne_nil sep cs
      have hpos : 0 < (splitChars sep cs).length := List.length_pos.mpr hne
      simp [hc]
      omega
    · have hcs : sep ∈ cs := by
        rcases List.mem_cons.mp h with h1 | h1
        · exact absurd h1.symm hc
        · exact h1
      have ih2 := ih hcs
      simp only [hc, if_false]
      cases hs : splitChars sep cs with
      | nil => exact absurd hs (splitChars_ne_nil sep cs)
      | cons p ps =>
        rw [hs] at ih2
        simpa using ih2

theorem stringsSplit_length_of_tag (field : String) (h : stringsIndex field "Tag:" ≠ -1) :
    2 ≤ (stringsSplit field ':').length := by
  have hmem : ':' ∈ field.data := indexChars_tag_colon field.data 0 h
  simpa [stringsSplit] using splitChars_length_of_mem ':' field.data hmem

theorem stringsSplit_second_of_tag (field : String) (h : stringsIndex field "Tag:" ≠ -1) :
    ∃ key, (stringsSplit field ':')[1]? = some key := by
  have hlen := stringsSplit_length_of_tag field h
  exact ⟨(stringsSplit field ':')[1], by simp [List.getElem?_eq_getElem (show 1 < _ from hlen)]⟩

theorem fieldValue_containing_tag (FormatTime : Option Time → Go String) (inst : Instance)
    (field : String) (h : stringsIndex field "Tag:" ≠ -1) :
    ∃ key, (stringsSplit field ':')[1]? = some key
      ∧ fieldValue FormatTime inst field = formatTag inst key := by
  obtain ⟨key, hkey⟩ := stringsSplit_second_of_tag field h
  exact ⟨key, hkey, by simp [fieldValue, h, hkey]⟩

theorem fieldValue_unknown (FormatTime : Option Time → Go String) (inst : Instance)
    (field : String) (hidx : stringsIndex field "Tag:" = -1) (hreg : field ∉ registryNames) :
    fieldValue FormatTime inst field = .error .nilFuncCall := by
  simp only [registryNames, List.mem_cons, List.mem_singleton, List.not_mem_nil, or_false,
    not_or] at hreg
  obtain ⟨h1, h2, h3, h4, h5, h6⟩ := hreg
  simp [fieldValue, hidx, formatFuncs, h1, h2, h3, h4, h5, h6]

theorem formatInstanceLoop_error (FormatTime : Option Time → Go String) (inst : Instance)
    (fields : List String) (h : ∃ f ∈ fields, ∃ p, fieldValue FormatTime inst f = .error p)
    (output : List String) :
    ∃ p, formatInstanceLoop FormatTime inst fields output = .error p := by
  induction fields generalizing output with
  | nil => simp at h
  | cons g gs ih =>
    unfold formatInstanceLoop
    cases hg : fieldValue FormatTime inst g with
    | error p => exact ⟨p, rfl⟩
    | ok v =>
      obtain ⟨f, hf, p, hp⟩ := h
      rcases List.mem_cons.mp hf with rfl | hf2
      · rw [hg] at hp; cases hp
      · exact ih ⟨f, hf2, p, hp⟩ (output ++ [v])

theorem formatInstance_unknown (FormatTime : Option Time → Go String) (inst : Instance)
    (fields : List String)
    (h : ∃ f ∈ fields, stringsIndex f "Tag:" = -1 ∧ f ∉ registryNames) :
    ∃ p, formatInstance FormatTime inst fields false = .error p := by
  obtain ⟨f, hf, hidx, hreg⟩ := h
  obtain ⟨p, hp⟩ := formatInstanceLoop_error FormatTime inst fields
    ⟨f, hf, .nilFuncCall, fieldValue_unknown FormatTime inst f hidx hreg⟩ []
  exact ⟨p, by simp [formatInstance, hp]⟩

/-! ## Lemmas on the printing loops -/

theorem indexChars_ne_iff_infix (sub l : List Char) (i : Nat) :
    indexChars sub l i ≠ -1 ↔ sub <:+: l := by
  induction l generalizing i with
  | nil =>
    unfold indexChars
    by_cases hp : sub.isPrefixOf [] = true
    · have hp2 := List.isPrefixOf_iff_prefix.mp hp
      simp only [hp, if_true]
      constructor
      · intro _; exact hp2.isInfix
      · intro _; omega
    · simp only [hp]
      constructor
      · intro h; exact absurd rfl h
      · intro h
        have : sub = [] := List.eq_nil_of_infix_nil h
        subst this
        simp [List.isPrefixOf] at hp
  | cons c cs ih =>
    unfold indexChars
    by_cases hp : sub.isPrefixOf (c :: cs) = true
    · have hp2 := List.isPrefixOf_iff_prefix.mp hp
      simp only [hp, if_true]
      constructor
      · intro _; exact hp2.isInfix
      · intro _; omega
    · simp only [hp, Bool.false_eq_true, if_false]
      rw [ih (i + 1), List.infix_cons_iff]
      constructor
      · intro h; exact Or.inr h
      · intro h
        rcases h with h | h
        · exact absurd (List.isPrefixOf_iff_prefix.mpr h) hp
        · exact h

theorem stringsIndex_ne_iff_infix (s substr : String) :
    stringsIndex s substr ≠ -1 ↔ substr.data <:+: s.data :=
  indexChars_ne_iff_infix substr.data s.data 0

theorem printInstances_append (FormatTime : Option Time → Go String) (options : LsOptions)
    (a b : List Instance) (printed : List String) :
    printInstances FormatTime options (a ++ b) printed
      = match printInstances FormatTime options a printed with
        | (printed1, some p) => (printed1, some p)
        | (printed1, none) => printInstances FormatTime options b printed1 := by
  induction a generalizing printed with
  | nil => simp [printInstances]
  | cons inst rest ih =>
    simp only [List.cons_append, printInstances]
    cases formatInstance FormatTime inst options.Fields options.Quiet with
    | error p => simp
    | ok line => simp [ih]

theorem printReservations_flat (FormatTime : Option Time → Go String) (options : LsOptions)
    (rs : List Reservation) (printed : List String) :
    printReservations FormatTime options rs printed
      = printInstances FormatTime options (rs.flatMap (fun r => r.Instances)) printed := by
  induction rs generalizing printed with
  | nil => simp [printReservations, printInstances]
  | cons r rest ih =>
    simp only [printReservations, List.flatMap_cons, printInstances_append]
    rcases printInstances FormatTime options r.Instances printed with ⟨printed1, _ | p⟩
    · simp [ih]
    · simp

theorem printInstances_ok (FormatTime : Option Time → Go String) (options : LsOptions)
    (insts : List Instance) (lines : List String)
    (h : List.Forall₂
      (fun inst line => formatInstance FormatTime inst options.Fields options.Quiet = .ok line)
      insts lines)
    (printed : List String) :
    printInstances FormatTime options insts printed = (printed ++ lines, none) := by
  induction h generalizing printed with
  | nil => simp [printInstances]
  | cons hl _ ih => simp [printInstances, hl, ih]

theorem printInstances_lines (FormatTime : Option Time → Go String) (options : LsOptions)
    (insts : List Instance) (printed : List String) :
    ∃ lines, (printInstances FormatTime options insts printed).1 = printed ++ lines
      ∧ List.Forall₂
          (fun inst line => formatInstance FormatTime inst options.Fields options.Quiet = .ok line)
          (insts.take lines.length) lines := by
  induction insts generalizing printed with
  | nil => exact ⟨[], by simp [printInstances]⟩
  | cons inst rest ih =>
    cases hl : formatInstance FormatTime inst options.Fields options.Quiet with
    | error p => exact ⟨[], by simp [printInstances, hl]⟩
    | ok line =>
      obtain ⟨lines, h1, h2⟩ := ih (printed ++ [line])
      refine ⟨line :: lines, ?_, ?_⟩
      · simp [printInstances, hl, h1]
      · simp only [List.length_cons, List.take_succ_cons]
        exact List.Forall₂.cons hl h2

theorem printInstances_first_error (FormatTime : Option Time → Go String) (options : LsOptions)
    (insts : List Instance) (hne : insts ≠ [])
    (h : ∀ inst ∈ insts, ∃ p, formatInstance FormatTime inst options.Fields options.Quiet = .error p)
    (printed : List String) :
    ∃ p, printInstances FormatTime options insts printed = (printed, some p) := by
  cases insts with
  | nil => exact absurd rfl hne
  | cons inst rest =>
    obtain ⟨p, hp⟩ := h inst (by simp)
    exact ⟨p, by simp [printInstances, hp]⟩

theorem Ls_of_response (FormatTime : Option Time → Go String)
    (describe : DescribeInstancesInput → Except GoError DescribeInstancesOutput)
    (options : LsOptions) (params : DescribeInstancesInput) (response : DescribeInstancesOutput)
    (hp : lsParams options = .ok params) (hd : describe params = .ok response) :
    Ls FormatTime describe options
      = { queries := [params],
          lines := (printInstances FormatTime options (allInstances response) []).1,
          outcome :=
            match (printInstances FormatTime options (allInstances response) []).2 with
            | some p => .panicked p
            | none => .returned none } := by
  unfold Ls
  simp only [hp, hd, printReservations_flat, allInstances]
  rcases printInstances FormatTime options
    (response.Reservations.flatMap (fun r => r.Instances)) [] with ⟨printed, _ | p⟩ <;> rfl

theorem formatInstances_exist (FormatTime : Option Time → Go String) (options : LsOptions)
    (insts : List Instance)
    (h : ∀ inst ∈ insts, ∃ line,
      formatInstance FormatTime inst options.Fields options.Quiet = .ok line) :
    ∃ lines, List.Forall₂
      (fun inst line => formatInstance FormatTime inst options.Fields options.Quiet = .ok line)
      insts lines := by
  induction insts with
  | nil => exact ⟨[], List.Forall₂.nil⟩
  | cons inst rest ih =>
    obtain ⟨l, hl⟩ := h inst (by simp)
    obtain ⟨ls, hls⟩ := ih (fun i hi => h i (by simp [hi]))
    exact ⟨l :: ls, List.Forall₂.cons hl hls⟩

/-! ## Lemmas on the split of a line and on the filter list -/

theorem stringsSplit_tabSeparated (vals : List String) (hne : vals ≠ [])
    (htab : ∀ v ∈ vals, '\t' ∉ v.data) :
    stringsSplit (tabSeparated vals) '\t' = vals := by
  induction vals with
  | nil => exact absurd rfl hne
  | cons v rest ih =>
    cases rest with
    | nil =>
      simp only [tabSeparated]
      exact stringsSplit_no_sep v '\t' (htab v (by simp))
    | cons w ws =>
      have ih2 := ih (by simp) (fun u hu => htab u (by simp [hu]))
      have hd : (v ++ "\t" ++ tabSeparated (w :: ws)).data
          = v.data ++ '\t' :: (tabSeparated (w :: ws)).data := by
        rw [String.data_append, String.data_append]
        simp
      simp only [stringsSplit] at ih2
      simp only [tabSeparated, stringsSplit, hd,
        splitChars_append_sep '\t' _ _ (htab v (by simp)), List.map_cons, ih2]

theorem fieldValue_resolves (FormatTime : Option Time → Go String) (inst : Instance)
    (hc : completeRecord FormatTime inst) (f : String)
    (hf : f ∈ registryNames ∨ stringsIndex f "Tag:" ≠ -1) :
    ∃ v, fieldValue FormatTime inst f = .ok v := by
  by_cases hidx : stringsIndex f "Tag:" ≠ -1
  · obtain ⟨key, _, hval⟩ := fieldValue_containing_tag FormatTime inst f hidx
    rw [hval]
    exact formatTagLoop_total key inst.Tags hc.2.2.2.2
  · rcases hf with hf | hf
    · exact fieldValue_resolvable FormatTime inst hc f (Or.inl hf)
    · exact absurd hf hidx

theorem buildTagFilter_none_iff (filterTag : String) (tagFilter : Option Filter)
    (h : buildTagFilter filterTag = .ok tagFilter) : tagFilter = none ↔ filterTag = "" := by
  unfold buildTagFilter at h
  by_cases he : filterTag = ""
  · simp only [he, ne_eq, not_true_eq_false, if_false, Except.ok.injEq] at h
    simp [he, ← h]
  · simp only [ne_eq, he, not_false_eq_true, if_true] at h
    constructor
    · intro hnone
      subst hnone
      split at h
      · cases h
      · split at h <;> cases h
    · intro h2; exact absurd h2 he


/-! ## Theorems -/

/-- C1: with `quiet = true`, whatever the field list, `formatInstance` gives
the same result as projecting the single field `"InstanceId"`, which is the
dereferenced identifier of the record; for a record that carries the
identifier `id` the returned line is exactly `id`. -/
theorem formatInstance_quiet (FormatTime : Option Time → Go String) (inst : Instance)
    (fields : List String) :
    formatInstance FormatTime inst fields true
        = formatInstance FormatTime inst ["InstanceId"] false
      ∧ formatInstance FormatTime inst fields true = formatInstanceID inst
      ∧ ∀ id : String, inst.InstanceId = some id →
          formatInstance FormatTime inst fields true = .ok id := by
  have h1 : formatInstance FormatTime inst fields true
      = formatInstance FormatTime inst ["InstanceId"] false := by
    simp [formatInstance]
  have h2 : formatInstance FormatTime inst fields true = formatInstanceID inst := by
    rw [h1, formatInstance_single, fieldValue_InstanceId]
  refine ⟨h1, h2, ?_⟩
  intro id hid
  rw [h2]
  simp [formatInstanceID, hid]

/-- Witness of C1 on the sample record, with a field list holding an unknown
name and a tag reference. -/
theorem formatInstance_quiet_witness :
    formatInstance sampleFormatTime sampleInstance ["Bogus", "Tag:Name"] true = .ok "i-001" :=
  (formatInstance_quiet sampleFormatTime sampleInstance ["Bogus", "Tag:Name"]).2.2 "i-001" rfl

/-- C2: with `quiet = false`, when the fields of the list have the values
`vals` (in the order of the list, a repeated name giving a repeated value),
the line is these values with exactly one tab between consecutive values and
none before the first or after the last; for the fields
`["InstanceId", "StateName"]` it is the identifier, a tab, the state name;
and on a record all of whose dereferenced fields are present every list of
registry names and tag references does produce such a line, with one value
per field. -/
theorem formatInstance_tab_joined (FormatTime : Option Time → Go String) (inst : Instance) :
    (∀ fields vals : List String,
        List.Forall₂ (fun f v => fieldValue FormatTime inst f = .ok v) fields vals →
        formatInstance FormatTime inst fields false = .ok (tabSeparated vals))
      ∧ (∀ id name : String, inst.InstanceId = some id →
          inst.State = some { Name := some name } →
          formatInstance FormatTime inst ["InstanceId", "StateName"] false
            = .ok (id ++ "\t" ++ name))
      ∧ (∀ fields : List String, completeRecord FormatTime inst →
          (∀ f ∈ fields, f ∈ registryNames ∨ isTagReference f = true) →
          ∃ vals : List String, vals.length = fields.length
            ∧ List.Forall₂ (fun f v => fieldValue FormatTime inst f = .ok v) fields vals
            ∧ formatInstance FormatTime inst fields false = .ok (tabSeparated vals)) := by
  refine ⟨formatInstance_of_values FormatTime inst, ?_, ?_⟩
  · intro id name hid hst
    have h := formatInstance_of_values FormatTime inst ["InstanceId", "StateName"] [id, name]
      (List.Forall₂.cons (by simp [fieldValue_InstanceId, formatInstanceID, hid])
        (List.Forall₂.cons (by simp [fieldValue_StateName, formatStateName, hst])
          List.Forall₂.nil))
    simpa [tabSeparated] using h
  · intro fields hc hf
    obtain ⟨vals, hvals⟩ := fieldValues_exist FormatTime inst fields
      (fun f hfm => fieldValue_resolvable FormatTime inst hc f (hf f hfm))
    exact ⟨vals, hvals.length_eq.symm, hvals, formatInstance_of_values FormatTime inst _ _ hvals⟩

/-- Witness of C2: the sample record with the fields `InstanceId`, `StateName`
and again `InstanceId`; with `InstanceId`, `StateName`; and, as a record with
all dereferenced fields present, with a registry name, a tag reference and
the launch time. -/
theorem formatInstance_tab_joined_witness :
    formatInstance sampleFormatTime sampleInstance ["InstanceId", "StateName", "InstanceId"] false
        = .ok "i-001\trunning\ti-001"
      ∧ formatInstance sampleFormatTime sampleInstance ["InstanceId", "StateName"] false
        = .ok "i-001\trunning"
      ∧ ∃ vals : List String, vals.length = ["InstanceType", "Tag:Name", "LaunchTime"].length
        ∧ List.Forall₂ (fun f v => fieldValue sampleFormatTime sampleInstance f = .ok v)
            ["InstanceType", "Tag:Name", "LaunchTime"] vals
        ∧ formatInstance sampleFormatTime sampleInstance
            ["InstanceType", "Tag:Name", "LaunchTime"] false = .ok (tabSeparated vals) :=
  ⟨(formatInstance_tab_joined sampleFormatTime sampleInstance).1
      ["InstanceId", "StateName", "InstanceId"] ["i-001", "running", "i-001"]
      (List.Forall₂.cons (by decide) (List.Forall₂.cons (by decide)
        (List.Forall₂.cons (by decide) List.Forall₂.nil))),
   (formatInstance_tab_joined sampleFormatTime sampleInstance).2.1 "i-001" "running" rfl rfl,
   (formatInstance_tab_joined sampleFormatTime sampleInstance).2.2
      ["InstanceType", "Tag:Name", "LaunchTime"]
      ⟨by decide, by decide, ⟨{ Name := some "running" }, rfl, by decide⟩,
        ⟨"2016-01-01 00:00:00", rfl⟩, by decide⟩
      (by decide)⟩

/-- C3 (amended): on a record whose tags all have a key and a value,
`formatTag` returns the value of the first tag, in the order of the tag list,
whose key equals the requested key, and returns `""` when no tag has that
key; projecting the field `"Tag:" ++ key` through `formatInstance` gives the
same for every key that contains no `:`. -/
theorem formatTag_first_match (inst : Instance) (key : String)
    (hwf : ∀ t ∈ inst.Tags, t.Key ≠ none ∧ t.Value ≠ none) :
    (∀ (pre post : List Tag) (t : Tag) (v : String), inst.Tags = pre ++ t :: post →
        (∀ u ∈ pre, u.Key ≠ some key) → t.Key = some key → t.Value = some v →
        formatTag inst key = .ok v)
      ∧ ((∀ u ∈ inst.Tags, u.Key ≠ some key) → formatTag inst key = .ok "")
      ∧ (':' ∉ key.data → ∀ FormatTime : Option Time → Go String,
          formatInstance FormatTime inst ["Tag:" ++ key] false = formatTag inst key) := by
  refine ⟨?_, ?_, ?_⟩
  · intro pre post t v htags hpre hk hv
    unfold formatTag
    rw [htags]
    refine formatTagLoop_first_match key v pre t post ?_ hk hv
    intro u hu
    exact key_ne_of_wf key u (hwf u (by rw [htags]; simp [hu])).1 (hpre u hu)
  · intro habs
    exact formatTagLoop_absent key inst.Tags
      (fun u hu => key_ne_of_wf key u (hwf u hu).1 (habs u hu))
  · intro hcolon FormatTime
    rw [formatInstance_single, fieldValue_tag_marker, takeWhile_no_colon key hcolon]

/-- Witness of C3 (amended): `Tag:Name` on the tags `Name=web1`, `Env=prod`
gives `web1`, and a key no tag has gives `""`. -/
theorem formatTag_first_match_witness :
    formatTag sampleInstance "Name" = .ok "web1"
      ∧ formatTag sampleInstance "Owner" = .ok ""
      ∧ formatInstance sampleFormatTime sampleInstance ["Tag:Name"] false = .ok "web1" :=
  ⟨(formatTag_first_match sampleInstance "Name" (by decide)).1 []
      [{ Key := some "Env", Value := some "prod" }] { Key := some "Name", Value := some "web1" }
      "web1" rfl (by decide) rfl rfl,
   (formatTag_first_match sampleInstance "Owner" (by decide)).2.1 (by decide),
   ((formatTag_first_match sampleInstance "Name" (by decide)).2.2 (by decide)
      sampleFormatTime).trans (by decide)⟩

/-- C3 (counterexample): on a record whose only tag has a nil key pointer, no
tag has the key `Name`, yet the lookup of `Name` panics instead of returning
`""`. -/
theorem formatTag_nil_key_panics :
    (∀ t ∈ nilKeyInstance.Tags, t.Key ≠ some "Name")
      ∧ formatTag nilKeyInstance "Name" = .error .nilDereference
      ∧ formatInstance sampleFormatTime nilKeyInstance ["Tag:Name"] false
          = .error .nilDereference := by
  decide

/-- C4 (the code at the failing input): for every name `"Tag:" ++ key` the key
`formatInstance` looks up is the part of `key` before its first `:`, not the
whole remainder; so on a record tagged `aws:autoscaling:groupName=web-asg`
the field `Tag:aws:autoscaling:groupName` looks up the key `aws` and yields
`""`, while the tag with the whole remainder as key has the value
`web-asg`. -/
theorem formatInstance_tag_key_cut_at_colon (FormatTime : Option Time → Go String) :
    (∀ (inst : Instance) (key : String),
        formatInstance FormatTime inst ["Tag:" ++ key] false
          = formatTag inst (String.mk (key.data.takeWhile (fun c => c != ':'))))
      ∧ formatInstance FormatTime groupTaggedInstance ["Tag:aws:autoscaling:groupName"] false
          = .ok ""
      ∧ formatTag groupTaggedInstance "aws:autoscaling:groupName" = .ok "web-asg" := by
  refine ⟨?_, ?_, by decide⟩
  · intro inst key
    rw [formatInstance_single, fieldValue_tag_marker]
  · have h : "Tag:aws:autoscaling:groupName" = "Tag:" ++ "aws:autoscaling:groupName" := by decide
    rw [h, formatInstance_single, fieldValue_tag_marker]
    decide

/-- C5: projecting `PublicIpAddress` gives `___.___.___.___` when the record
has no public address and the address itself when it has one; likewise
`PrivateIpAddress` with the private address; no case panics. -/
theorem formatIPAddress_placeholder (FormatTime : Option Time → Go String) (inst : Instance) :
    (inst.PublicIpAddress = none →
        formatInstance FormatTime inst ["PublicIpAddress"] false = .ok "___.___.___.___")
      ∧ (∀ a : String, inst.PublicIpAddress = some a →
        formatInstance FormatTime inst ["PublicIpAddress"] false = .ok a)
      ∧ (inst.PrivateIpAddress = none →
        formatInstance FormatTime inst ["PrivateIpAddress"] false = .ok "___.___.___.___")
      ∧ (∀ a : String, inst.PrivateIpAddress = some a →
        formatInstance FormatTime inst ["PrivateIpAddress"] false = .ok a) := by
  refine ⟨?_, ?_, ?_, ?_⟩
  · intro h
    rw [formatInstance_single, fieldValue_PublicIpAddress]
    simp [formatPublicIPAddress, h]
  · intro a h
    rw [formatInstance_single, fieldValue_PublicIpAddress]
    simp [formatPublicIPAddress, h]
  · intro h
    rw [formatInstance_single, fieldValue_PrivateIpAddress]
    simp [formatPrivateIPAddress, h]
  · intro a h
    rw [formatInstance_single, fieldValue_PrivateIpAddress]
    simp [formatPrivateIPAddress, h]

/-- Witness of C5: no public address gives the placeholder, the public
address `1.2.3.4` and the private address `10.0.0.1` are given unchanged. -/
theorem formatIPAddress_placeholder_witness :
    formatInstance sampleFormatTime sampleInstance ["PublicIpAddress"] false
        = .ok "___.___.___.___"
      ∧ formatInstance sampleFormatTime addressedInstance ["PublicIpAddress"] false
        = .ok "1.2.3.4"
      ∧ formatInstance sampleFormatTime sampleInstance ["PrivateIpAddress"] false
        = .ok "10.0.0.1" :=
  ⟨(formatIPAddress_placeholder sampleFormatTime sampleInstance).1 rfl,
   (formatIPAddress_placeholder sampleFormatTime addressedInstance).2.1 "1.2.3.4" rfl,
   (formatIPAddress_placeholder sampleFormatTime sampleInstance).2.2.2 "10.0.0.1" rfl⟩

/-- C6: on a record of type `t`, projecting `InstanceType` gives `t` followed
by spaces only; the result has 11 characters when `t` has at most 11, and is
`t` itself, neither padded nor cut, when `t` has 11 characters or more. -/
theorem formatInstanceType_padded (FormatTime : Option Time → Go String) (inst : Instance)
    (t : String) (ht : inst.InstanceType = some t) :
    ∃ (r : String) (k : Nat),
      formatInstance FormatTime inst ["InstanceType"] false = .ok r
        ∧ r = t ++ String.mk (List.replicate k ' ')
        ∧ r.length = (if t.length ≤ 11 then 11 else t.length)
        ∧ (11 ≤ t.length → r = t) := by
  refine ⟨sprintfLeftJustified 11 t, 11 - t.length, ?_, rfl, sprintfLeftJustified_length 11 t, ?_⟩
  · rw [formatInstance_single, fieldValue_InstanceType]
    simp [formatInstanceType, ht]
  · intro hlen
    have h0 : 11 - t.length = 0 := by omega
    apply String.ext
    simp [sprintfLeftJustified, h0]

/-- Witness of C6 on the sample record, whose type `t2.micro` has 8
characters. -/
theorem formatInstanceType_padded_witness :
    ∃ (r : String) (k : Nat),
      formatInstance sampleFormatTime sampleInstance ["InstanceType"] false = .ok r
        ∧ r = "t2.micro" ++ String.mk (List.replicate k ' ')
        ∧ r.length = (if "t2.micro".length ≤ 11 then 11 else "t2.micro".length)
        ∧ (11 ≤ "t2.micro".length → r = "t2.micro") :=
  formatInstanceType_padded sampleFormatTime sampleInstance "t2.micro" rfl

/-- C7 (amended): on a record of type `t2.micro`, projecting `InstanceType`
gives `t2.micro` followed by three spaces, 11 characters in all. -/
theorem formatInstanceType_t2_micro (FormatTime : Option Time → Go String) (inst : Instance)
    (ht : inst.InstanceType = some "t2.micro") :
    formatInstance FormatTime inst ["InstanceType"] false = .ok "t2.micro   "
      ∧ "t2.micro   ".length = 11 := by
  refine ⟨?_, by decide⟩
  rw [formatInstance_single, fieldValue_InstanceType]
  simp only [formatInstanceType, ht]
  decide

/-- Witness of C7 (amended) on the sample record. -/
theorem formatInstanceType_t2_micro_witness :
    formatInstance sampleFormatTime sampleInstance ["InstanceType"] false = .ok "t2.micro   "
      ∧ "t2.micro   ".length = 11 :=
  formatInstanceType_t2_micro sampleFormatTime sampleInstance rfl

/-- C7 (counterexample): on the sample record, of type `t2.micro`, projecting
`InstanceType` does not give `t2.micro` followed by two spaces. -/
theorem formatInstanceType_not_two_spaces :
    sampleInstance.InstanceType = some "t2.micro"
      ∧ formatInstance sampleFormatTime sampleInstance ["InstanceType"] false
          ≠ .ok "t2.micro  "
      ∧ formatInstanceType sampleInstance ≠ .ok "t2.micro  " := by
  decide

/-- C8: `buildStateFilter false` is the predicate named `instance-state-name`
with the value list `["running"]`, `buildStateFilter true` is no predicate;
the request `Ls` builds, and so every query `Ls` sends, has the running-state
predicate among its filters exactly when the include-all flag is false,
whatever the tag filter; the request is built whenever the tag filter
builds. -/
theorem buildStateFilter_running :
    buildStateFilter false
        = some { Name := some "instance-state-name", Values := [some "running"] }
      ∧ buildStateFilter true = none
      ∧ (∀ (options : LsOptions) (params : DescribeInstancesInput),
          lsParams options = .ok params →
          (some runningFilter ∈ params.Filters ↔ options.All = false))
      ∧ (∀ (FormatTime : Option Time → Go String)
          (describe : DescribeInstancesInput → Except GoError DescribeInstancesOutput)
          (options : LsOptions) (q : DescribeInstancesInput),
          q ∈ (Ls FormatTime describe options).queries →
          (some runningFilter ∈ q.Filters ↔ options.All = false))
      ∧ (∀ (options : LsOptions) (tagFilter : Option Filter),
          buildTagFilter options.FilterTag = .ok tagFilter →
          lsParams options = .ok { Filters := [buildStateFilter options.All, tagFilter] }) := by
  refine ⟨rfl, rfl, lsParams_running, ?_, ?_⟩
  · intro FormatTime describe options q hq
    exact lsParams_running options q (Ls_queries FormatTime describe options q hq)
  · intro options tagFilter h
    simp [lsParams, h]

/-- Witness of C8: with include-all false and the tag filter `Name:web`, the
request `Ls` builds is the running-state predicate followed by the tag
predicate; it is the one query `Ls` sends, and it holds the running-state
predicate. -/
theorem buildStateFilter_running_witness :
    lsParams { All := false, Quiet := false, FilterTag := "Name:web", Fields := [] }
        = .ok { Filters := [some runningFilter,
            some { Name := some "tag:Name", Values := [some "*web*"] }] }
      ∧ (Ls sampleFormatTime emptyDescribe
            { All := false, Quiet := false, FilterTag := "Name:web", Fields := [] }).queries
          = [{ Filters := [some runningFilter,
              some { Name := some "tag:Name", Values := [some "*web*"] }] }]
      ∧ some runningFilter ∈ ({ Filters := [some runningFilter,
          some { Name := some "tag:Name", Values := [some "*web*"] }] } :
          DescribeInstancesInput).Filters :=
  ⟨buildStateFilter_running.2.2.2.2
      { All := false, Quiet := false, FilterTag := "Name:web", Fields := [] }
      (some { Name := some "tag:Name", Values := [some "*web*"] }) (by decide),
   by decide,
   (buildStateFilter_running.2.2.2.1 sampleFormatTime emptyDescribe
      { All := false, Quiet := false, FilterTag := "Name:web", Fields := [] }
      { Filters := [some runningFilter,
          some { Name := some "tag:Name", Values := [some "*web*"] }] }
      (by decide)).mpr rfl⟩

/-- C9: for a key `k` and a value `v` without `:`, `buildTagFilter` on
`k ++ ":" ++ v` gives the predicate named `"tag:" ++ k` whose value list is
the single string `"*" ++ v ++ "*"`; on `""` it gives no predicate. -/
theorem buildTagFilter_key_value (k v : String) (hk : ':' ∉ k.data) (hv : ':' ∉ v.data) :
    buildTagFilter (k ++ ":" ++ v)
        = .ok (some { Name := some ("tag:" ++ k), Values := [some ("*" ++ v ++ "*")] })
      ∧ buildTagFilter "" = .ok none := by
  refine ⟨?_, by decide⟩
  have hne : k ++ ":" ++ v ≠ "" := by
    intro h
    have h1 := congrArg String.length h
    simp only [String.length_append] at h1
    have h2 : ":".length = 1 := by decide
    have h3 : "".length = 0 := by decide
    omega
  simp [buildTagFilter, hne, stringsSplit_key_value k v hk hv]

/-- Witness of C9 with the key `Name` and the value `web`. -/
theorem buildTagFilter_key_value_witness :
    buildTagFilter "Name:web"
        = .ok (some { Name := some "tag:Name", Values := [some "*web*"] })
      ∧ buildTagFilter "" = .ok none :=
  buildTagFilter_key_value "Name" "web" (by decide) (by decide)

/-- C10 (the code at the failing input): on `url:http://x` the value pattern
`buildTagFilter` builds is `*http*`; the text after the second `:` is
dropped, where the claim expects `*http://x*`. -/
theorem buildTagFilter_url_value :
    buildTagFilter "url:http://x"
        = .ok (some { Name := some "tag:url", Values := [some "*http*"] })
      ∧ buildTagFilter "url:http://x"
        ≠ .ok (some { Name := some "tag:url", Values := [some "*http://x*"] }) := by
  decide

/-- C11 (the code at the failing inputs): on a non-empty tag filter without
`:` the access `tagParts[1]` of `buildTagFilter` is out of range, so
`buildTagFilter` panics instead of returning an error, and `Ls` ends in that
panic; no query is sent and no line is printed. -/
theorem buildTagFilter_no_colon_panics (filterTag : String) (hne : filterTag ≠ "")
    (hcolon : ':' ∉ filterTag.data) :
    buildTagFilter filterTag = .error .indexOutOfRange
      ∧ ∀ (FormatTime : Option Time → Go String)
          (describe : DescribeInstancesInput → Except GoError DescribeInstancesOutput)
          (all quiet : Bool) (fields : List String),
          Ls FormatTime describe
              { All := all, Quiet := quiet, FilterTag := filterTag, Fields := fields }
            = { queries := [], lines := [], outcome := .panicked .indexOutOfRange } := by
  have h := buildTagFilter_no_colon filterTag hne hcolon
  refine ⟨h, ?_⟩
  intro FormatTime describe all quiet fields
  simp [Ls, lsParams, h]

/-- Witness of C11 with the tag filter `Name`. -/
theorem buildTagFilter_no_colon_panics_witness :
    buildTagFilter "Name" = .error .indexOutOfRange
      ∧ Ls sampleFormatTime sampleDescribe
          { All := false, Quiet := false, FilterTag := "Name", Fields := ["InstanceId"] }
        = { queries := [], lines := [], outcome := .panicked .indexOutOfRange } :=
  ⟨(buildTagFilter_no_colon_panics "Name" (by decide) (by decide)).1,
   (buildTagFilter_no_colon_panics "Name" (by decide) (by decide)).2
      sampleFormatTime sampleDescribe false false ["InstanceId"]⟩

/-- C12 (amended): with `quiet = false` and a field list holding a name that is
not in the registry and does not contain `Tag:`, a successful query that
returns at least one instance makes `Ls` end in a panic with no line printed;
a successful query that returns no instance makes `Ls` return without error,
again with no line printed. -/
theorem Ls_unknown_field (FormatTime : Option Time → Go String)
    (describe : DescribeInstancesInput → Except GoError DescribeInstancesOutput)
    (options : LsOptions) (params : DescribeInstancesInput) (response : DescribeInstancesOutput)
    (hquiet : options.Quiet = false)
    (hfield : ∃ f ∈ options.Fields, stringsIndex f "Tag:" = -1 ∧ f ∉ registryNames)
    (hp : lsParams options = .ok params) (hd : describe params = .ok response) :
    (allInstances response ≠ [] →
        ∃ p, Ls FormatTime describe options
          = { queries := [params], lines := [], outcome := .panicked p })
      ∧ (allInstances response = [] →
        Ls FormatTime describe options
          = { queries := [params], lines := [], outcome := .returned none }) := by
  rw [Ls_of_response FormatTime describe options params response hp hd]
  constructor
  · intro hne
    obtain ⟨p, hpanic⟩ := printInstances_first_error FormatTime options (allInstances response)
      hne (fun inst _ => by
        rw [hquiet]; exact formatInstance_unknown FormatTime inst options.Fields hfield) []
    exact ⟨p, by rw [hpanic]⟩
  · intro hnil
    rw [hnil]
    rfl

/-- Witness of C12 (amended): the sample response and the fields `InstanceId`,
`Bogus`. -/
theorem Ls_unknown_field_witness :
    ∃ p, Ls sampleFormatTime sampleDescribe
        { All := true, Quiet := false, FilterTag := "", Fields := ["InstanceId", "Bogus"] }
      = { queries := [{ Filters := [none, none] }], lines := [], outcome := .panicked p } :=
  (Ls_unknown_field sampleFormatTime sampleDescribe
    { All := true, Quiet := false, FilterTag := "", Fields := ["InstanceId", "Bogus"] }
    { Filters := [none, none] } sampleResponse rfl ⟨"Bogus", by decide, by decide, by decide⟩
    rfl rfl).1 (by decide)

/-- C12 (counterexample): `Bogus` is neither a registry name nor a tag
reference, yet on a query that returns no instance `Ls` with the fields
`["Bogus"]` returns without error. -/
theorem Ls_unknown_field_no_instances :
    "Bogus" ∉ registryNames ∧ isTagReference "Bogus" = false
      ∧ Ls sampleFormatTime emptyDescribe
          { All := true, Quiet := false, FilterTag := "", Fields := ["Bogus"] }
        = { queries := [{ Filters := [none, none] }], lines := [], outcome := .returned none } := by
  decide

/-- C13 (amended): after a successful query on which `formatInstance` gives
the line `lines[i]` for the `i`-th instance of the reservations flattened in
order, `Ls` prints exactly `lines`, one per instance and nothing else, and
returns without error; when `formatInstance` panics on some instance, the
printed lines are the `formatInstance` lines of the instances before it, in
that order. -/
theorem Ls_lines (FormatTime : Option Time → Go String)
    (describe : DescribeInstancesInput → Except GoError DescribeInstancesOutput)
    (options : LsOptions) (params : DescribeInstancesInput) (response : DescribeInstancesOutput)
    (hp : lsParams options = .ok params) (hd : describe params = .ok response) :
    (∀ lines : List String,
        List.Forall₂
          (fun inst line =>
            formatInstance FormatTime inst options.Fields options.Quiet = .ok line)
          (allInstances response) lines →
        Ls FormatTime describe options
            = { queries := [params], lines := lines, outcome := .returned none }
          ∧ lines.length = (allInstances response).length)
      ∧ List.Forall₂
          (fun inst line =>
            formatInstance FormatTime inst options.Fields options.Quiet = .ok line)
          ((allInstances response).take (Ls FormatTime describe options).lines.length)
          (Ls FormatTime describe options).lines
      ∧ (∀ (r : Reservation) (rs : List Reservation),
          allInstances { Reservations := r :: rs }
            = r.Instances ++ allInstances { Reservations := rs }) := by
  rw [Ls_of_response FormatTime describe options params response hp hd]
  refine ⟨?_, ?_, ?_⟩
  · intro lines hlines
    have h := printInstances_ok FormatTime options (allInstances response) lines hlines []
    rw [h]
    exact ⟨by simp, hlines.length_eq.symm⟩
  · obtain ⟨lines, h1, h2⟩ := printInstances_lines FormatTime options (allInstances response) []
    simp only [List.nil_append] at h1
    simp only [h1]
    exact h2
  · intro r rs
    simp [allInstances]

/-- Witness of C13 (amended): two instances in two reservations, fields
`InstanceId`, `StateName`: the lines `i-001<tab>running` and
`i-002<tab>stopped`, in this order. -/
theorem Ls_lines_witness :
    Ls sampleFormatTime sampleDescribe
        { All := false, Quiet := false, FilterTag := "", Fields := ["InstanceId", "StateName"] }
      = { queries := [{ Filters := [some runningFilter, none] }],
          lines := ["i-001\trunning", "i-002\tstopped"], outcome := .returned none } :=
  ((Ls_lines sampleFormatTime sampleDescribe
    { All := false, Quiet := false, FilterTag := "", Fields := ["InstanceId", "StateName"] }
    { Filters := [some runningFilter, none] } sampleResponse rfl rfl).1
    ["i-001\trunning", "i-002\tstopped"]
    (List.Forall₂.cons (by decide) (List.Forall₂.cons (by decide) List.Forall₂.nil))).1

/-- C13 (counterexample): two successful responses of two instances each on
which `Ls` does not print one line per instance: with the fields `InstanceId`,
`Bogus` the first `formatInstance` call panics and no line is printed; with
the field `InstanceId` and a second instance without identifier only the
line of the first instance is printed. -/
theorem Ls_lines_fewer_than_instances :
    (allInstances sampleResponse).length = 2
      ∧ Ls sampleFormatTime sampleDescribe
          { All := true, Quiet := false, FilterTag := "", Fields := ["InstanceId", "Bogus"] }
        = { queries := [{ Filters := [none, none] }], lines := [],
            outcome := .panicked .nilFuncCall }
      ∧ (allInstances partialResponse).length = 2
      ∧ Ls sampleFormatTime partialDescribe
          { All := true, Quiet := false, FilterTag := "", Fields := ["InstanceId"] }
        = { queries := [{ Filters := [none, none] }], lines := ["i-001"],
            outcome := .panicked .nilDereference } := by
  decide

/-- C14: once the request is built, a query that returns the error `err`
makes `Ls` return `err` wrapped with the context `DescribeInstances failed`,
after that one query and without any printed line; a query that succeeds,
with `formatInstance` returning a line for every instance (as it does with
`quiet = false` on records with all dereferenced fields present and fields
that are registry names or contain `Tag:`), makes `Ls` return no error,
again after one query. -/
theorem Ls_query_error (FormatTime : Option Time → Go String)
    (describe : DescribeInstancesInput → Except GoError DescribeInstancesOutput)
    (options : LsOptions) (params : DescribeInstancesInput)
    (hp : lsParams options = .ok params) :
    (∀ err : GoError, describe params = .error err →
        Ls FormatTime describe options
          = { queries := [params], lines := [],
              outcome := .returned (some (.wrap err "DescribeInstances failed")) })
      ∧ (∀ response : DescribeInstancesOutput, describe params = .ok response →
          (∀ inst ∈ allInstances response, ∃ line,
            formatInstance FormatTime inst options.Fields options.Quiet = .ok line) →
          (Ls FormatTime describe options).outcome = .returned none
            ∧ (Ls FormatTime describe options).queries = [params])
      ∧ (∀ response : DescribeInstancesOutput, describe params = .ok response →
          options.Quiet = false →
          (∀ inst ∈ allInstances response, completeRecord FormatTime inst) →
          (∀ f ∈ options.Fields, f ∈ registryNames ∨ stringsIndex f "Tag:" ≠ -1) →
          (Ls FormatTime describe options).outcome = .returned none
            ∧ (Ls FormatTime describe options).queries = [params]) := by
  have hsecond : ∀ response : DescribeInstancesOutput, describe params = .ok response →
      (∀ inst ∈ allInstances response, ∃ line,
        formatInstance FormatTime inst options.Fields options.Quiet = .ok line) →
      (Ls FormatTime describe options).outcome = .returned none
        ∧ (Ls FormatTime describe options).queries = [params] := by
    intro response hd hall
    obtain ⟨lines, hlines⟩ := formatInstances_exist FormatTime options (allInstances response) hall
    rw [Ls_of_response FormatTime describe options params response hp hd,
      printInstances_ok FormatTime options (allInstances response) lines hlines []]
    exact ⟨rfl, rfl⟩
  refine ⟨?_, hsecond, ?_⟩
  · intro err hd
    simp [Ls, hp, hd]
  · intro response hd hquiet hcomplete hfields
    refine hsecond response hd ?_
    intro inst hinst
    obtain ⟨vals, hvals⟩ := fieldValues_exist FormatTime inst options.Fields
      (fun f hf => fieldValue_resolves FormatTime inst (hcomplete inst hinst) f (hfields f hf))
    exact ⟨tabSeparated vals, by
      rw [hquiet]; exact formatInstance_of_values FormatTime inst _ _ hvals⟩

/-- Witness of C14: a failing query gives the wrapped error, one query and no
line; the sample query gives no error. -/
theorem Ls_query_error_witness :
    Ls sampleFormatTime failingDescribe
        { All := false, Quiet := false, FilterTag := "Name:web", Fields := ["InstanceId"] }
      = { queries := [{ Filters := [some runningFilter,
              some { Name := some "tag:Name", Values := [some "*web*"] }] }],
          lines := [],
          outcome := .returned
            (some (.wrap (.api "RequestLimitExceeded") "DescribeInstances failed")) }
      ∧ (Ls sampleFormatTime sampleDescribe
          { All := false, Quiet := false, FilterTag := "Name:web",
            Fields := ["InstanceId"] }).outcome = .returned none :=
  ⟨(Ls_query_error sampleFormatTime failingDescribe
      { All := false, Quiet := false, FilterTag := "Name:web", Fields := ["InstanceId"] }
      { Filters := [some runningFilter,
          some { Name := some "tag:Name", Values := [some "*web*"] }] }
      (by decide)).1 (.api "RequestLimitExceeded") rfl,
   ((Ls_query_error sampleFormatTime sampleDescribe
      { All := false, Quiet := false, FilterTag := "Name:web", Fields := ["InstanceId"] }
      { Filters := [some runningFilter,
          some { Name := some "tag:Name", Values := [some "*web*"] }] }
      (by decide)).2.1 sampleResponse rfl (fun inst hinst => by
        have h : inst = sampleInstance ∨ inst = stoppedInstance := by
          simpa [allInstances, sampleResponse] using hinst
        rcases h with rfl | rfl
        · exact ⟨"i-001", by decide⟩
        · exact ⟨"i-002", by decide⟩)).1⟩

/-- C15 (amended): the filter list of the request `Ls` builds always has
exactly two entries, the state entry first and the tag entry second; the
state entry is nil exactly when include-all is true and the tag entry is nil
exactly when the tag filter is empty, so the number of non-nil entries is the
number of active criteria. -/
theorem lsParams_two_entries (options : LsOptions) (params : DescribeInstancesInput)
    (hp : lsParams options = .ok params) :
    params.Filters.length = 2
      ∧ params.Filters[0]? = some (buildStateFilter options.All)
      ∧ (params.Filters[0]? = some none ↔ options.All = true)
      ∧ (params.Filters[1]? = some none ↔ options.FilterTag = "")
      ∧ (params.Filters.filter Option.isSome).length
          = (if options.All = true then 0 else 1) + (if options.FilterTag = "" then 0 else 1) := by
  unfold lsParams at hp
  cases htag : buildTagFilter options.FilterTag with
  | error p => simp [htag] at hp
  | ok tagFilter =>
    have hnone := buildTagFilter_none_iff options.FilterTag tagFilter htag
    simp only [htag, Except.ok.injEq] at hp
    subst hp
    cases hall : options.All <;> cases tagFilter with
    | none =>
      have he : options.FilterTag = "" := hnone.mp rfl
      simp [buildStateFilter, he]
    | some f =>
      have he : options.FilterTag ≠ "" := fun h => by simpa using hnone.mpr h
      simp [buildStateFilter, he]

/-- Witness of C15 (amended): include-all false and the tag filter `Name:web`
give two entries, both non-nil. -/
theorem lsParams_two_entries_witness :
    ({ Filters := [some runningFilter,
        some { Name := some "tag:Name", Values := [some "*web*"] }] } :
        DescribeInstancesInput).Filters.length = 2
      ∧ (({ Filters := [some runningFilter,
          some { Name := some "tag:Name", Values := [some "*web*"] }] } :
          DescribeInstancesInput).Filters.filter Option.isSome).length = 2 :=
  ⟨(lsParams_two_entries
      { All := false, Quiet := false, FilterTag := "Name:web", Fields := [] }
      { Filters := [some runningFilter,
          some { Name := some "tag:Name", Values := [some "*web*"] }] } (by decide)).1,
   (lsParams_two_entries
      { All := false, Quiet := false, FilterTag := "Name:web", Fields := [] }
      { Filters := [some runningFilter,
          some { Name := some "tag:Name", Values := [some "*web*"] }] }
      (by decide)).2.2.2.2.trans (by decide)⟩

/-- C15 (counterexample): with include-all true and an empty tag filter no
criterion is active, yet the filter list of the request, and of the query
`Ls` sends, has two entries, both nil. -/
theorem lsParams_nil_entries :
    lsParams { All := true, Quiet := false, FilterTag := "", Fields := [] }
        = .ok { Filters := [none, none] }
      ∧ ({ Filters := [none, none] } : DescribeInstancesInput).Filters.length = 2
      ∧ (Ls sampleFormatTime emptyDescribe
          { All := true, Quiet := false, FilterTag := "", Fields := [] }).queries
        = [{ Filters := [none, none] }] := by
  decide

/-- C16 (amended): `formatInstance` treats a field name as a tag reference
exactly when the name contains `Tag:` at any position; the key it looks up is
then the second `:`-separated piece of the name, so `MyTag:Name` is a tag
lookup; a name that does not contain `Tag:` and is not in the registry is a
lookup failure. -/
theorem formatInstance_tag_anywhere (FormatTime : Option Time → Go String) (inst : Instance)
    (field : String) :
    (stringsIndex field "Tag:" ≠ -1 ↔ "Tag:".data <:+: field.data)
      ∧ ("Tag:".data <:+: field.data →
          ∃ key, (stringsSplit field ':')[1]? = some key
            ∧ formatInstance FormatTime inst [field] false = formatTag inst key)
      ∧ (¬ "Tag:".data <:+: field.data → field ∉ registryNames →
          formatInstance FormatTime inst [field] false = .error .nilFuncCall) := by
  have hiff := stringsIndex_ne_iff_infix field "Tag:"
  refine ⟨hiff, ?_, ?_⟩
  · intro hin
    obtain ⟨key, hkey, hval⟩ := fieldValue_containing_tag FormatTime inst field (hiff.mpr hin)
    exact ⟨key, hkey, by rw [formatInstance_single, hval]⟩
  · intro hnot hreg
    have hidx : stringsIndex field "Tag:" = -1 := by
      by_contra hne
      exact hnot (hiff.mp hne)
    rw [formatInstance_single, fieldValue_unknown FormatTime inst field hidx hreg]

/-- Witness of C16 (amended): `MyTag:Name` is a tag lookup, `Bogus` a lookup
failure. -/
theorem formatInstance_tag_anywhere_witness :
    (∃ key, (stringsSplit "MyTag:Name" ':')[1]? = some key
        ∧ formatInstance sampleFormatTime sampleInstance ["MyTag:Name"] false
          = formatTag sampleInstance key)
      ∧ formatInstance sampleFormatTime sampleInstance ["Bogus"] false = .error .nilFuncCall :=
  ⟨(formatInstance_tag_anywhere sampleFormatTime sampleInstance "MyTag:Name").2.1
      ⟨['M', 'y'], ['N', 'a', 'm', 'e'], rfl⟩,
   (formatInstance_tag_anywhere sampleFormatTime sampleInstance "Bogus").2.2
      (fun h => absurd
        ((formatInstance_tag_anywhere sampleFormatTime sampleInstance "Bogus").1.mpr h)
        (by decide))
      (by decide)⟩

/-- C16 (counterexample): `MyTag:Name` does not begin with `Tag:` and is not
in the registry, yet projecting it on the sample record is the lookup of the
tag `Name`, which returns `web1`, not a lookup failure. -/
theorem formatInstance_MyTag_is_lookup :
    isTagReference "MyTag:Name" = false ∧ "MyTag:Name" ∉ registryNames
      ∧ formatInstance sampleFormatTime sampleInstance ["MyTag:Name"] false = .ok "web1" := by
  decide

/-- C17: on a record whose tags all have a key and a value, and for a field
list whose names all contain `Tag:`, `formatInstance` with `quiet = false`
returns a line; splitting such a name on `:` gives at least two pieces, so
the piece of index 1 exists; the bare name `Tag:` looks up the empty key. -/
theorem formatInstance_tag_fields_total (FormatTime : Option Time → Go String)
    (inst : Instance) (fields : List String)
    (hwf : ∀ t ∈ inst.Tags, t.Key ≠ none ∧ t.Value ≠ none)
    (hfields : ∀ f ∈ fields, stringsIndex f "Tag:" ≠ -1) :
    (∃ line, formatInstance FormatTime inst fields false = .ok line)
      ∧ (∀ f ∈ fields, 2 ≤ (stringsSplit f ':').length
          ∧ ∃ key, (stringsSplit f ':')[1]? = some key)
      ∧ (stringsSplit "Tag:" ':')[1]? = some ""
      ∧ formatInstance FormatTime inst ["Tag:"] false = formatTag inst "" := by
  refine ⟨?_, ?_, by decide, ?_⟩
  · obtain ⟨vals, hvals⟩ := fieldValues_exist FormatTime inst fields (fun f hf => by
      obtain ⟨key, _, hval⟩ := fieldValue_containing_tag FormatTime inst f (hfields f hf)
      rw [hval]
      exact formatTagLoop_total key inst.Tags hwf)
    exact ⟨tabSeparated vals, formatInstance_of_values FormatTime inst fields vals hvals⟩
  · intro f hf
    exact ⟨stringsSplit_length_of_tag f (hfields f hf),
      stringsSplit_second_of_tag f (hfields f hf)⟩
  · have h : stringsIndex "Tag:" "Tag:" ≠ -1 := by decide
    have h2 : (stringsSplit "Tag:" ':')[1]? = some "" := by decide
    rw [formatInstance_single]
    simp [fieldValue, h, h2]

/-- Witness of C17 on the sample record with the fields `Tag:Name`, `Tag:` and
`MyTag:Env`. -/
theorem formatInstance_tag_fields_total_witness :
    ∃ line, formatInstance sampleFormatTime sampleInstance
      ["Tag:Name", "Tag:", "MyTag:Env"] false = .ok line :=
  (formatInstance_tag_fields_total sampleFormatTime sampleInstance
    ["Tag:Name", "Tag:", "MyTag:Env"] (by decide) (by decide)).1

/-- C18: when the fields of a non-empty list have the values `vals`, none of
which contains a tab, `formatInstance` with `quiet = false` returns a line
whose split on the tab character is exactly `vals`, so the line has as many
columns as there are fields; for the empty field list the line is `""`. -/
theorem formatInstance_split_roundtrip (FormatTime : Option Time → Go String)
    (inst : Instance) (fields vals : List String)
    (hvals : List.Forall₂ (fun f v => fieldValue FormatTime inst f = .ok v) fields vals)
    (hne : fields ≠ []) (htab : ∀ v ∈ vals, '\t' ∉ v.data) :
    (∃ line, formatInstance FormatTime inst fields false = .ok line
        ∧ stringsSplit line '\t' = vals
        ∧ (stringsSplit line '\t').length = fields.length)
      ∧ formatInstance FormatTime inst [] false = .ok "" := by
  have hvne : vals ≠ [] := by
    intro h
    subst h
    cases hvals
    exact hne rfl
  have hsplit := stringsSplit_tabSeparated vals hvne htab
  refine ⟨⟨tabSeparated vals, formatInstance_of_values FormatTime inst fields vals hvals,
    hsplit, ?_⟩, ?_⟩
  · rw [hsplit]; exact hvals.length_eq.symm
  · simp [formatInstance, formatInstanceLoop, stringsJoin]

/-- Witness of C18: the sample record with the fields `InstanceId`,
`InstanceType`, `Tag:Name`. -/
theorem formatInstance_split_roundtrip_witness :
    (∃ line, formatInstance sampleFormatTime sampleInstance
          ["InstanceId", "InstanceType", "Tag:Name"] false = .ok line
        ∧ stringsSplit line '\t' = ["i-001", "t2.micro   ", "web1"]
        ∧ (stringsSplit line '\t').length = ["InstanceId", "InstanceType", "Tag:Name"].length)
      ∧ formatInstance sampleFormatTime sampleInstance [] false = .ok "" :=
  formatInstance_split_roundtrip sampleFormatTime sampleInstance
    ["InstanceId", "InstanceType", "Tag:Name"] ["i-001", "t2.micro   ", "web1"]
    (List.Forall₂.cons (by decide) (List.Forall₂.cons (by decide)
      (List.Forall₂.cons (by decide) List.Forall₂.nil)))
    (by decide) (by decide)

end Myaws
